import Mathlib

/-!
Verification development for the Moons "PL" execution engine (package `pl`).

The Lean definitions below are shallow embeddings of the Go source under
`src/pl` (`eval.go`, `mod_query.go`, `obj_pair.go`).  Machine `int64`
arithmetic is modelled as `Int` with an explicit two's-complement wrap
(`wrap64`) applied where the Go code can overflow.  Go `float64` payloads are
modelled as `Rat`; every theorem below that touches a `real` value only
depends on exact small arithmetic or on the value's kind / error status, never
on IEEE-specific behaviour (infinity, NaN, rounding).  Fallible Go functions
returning `(Val, error)` become `Except String V`.  Go runtime panics
(out-of-range slice indexing, `must` assertion failures) are modelled by an
explicit `panic`-like result constructor or by `Option`.

A handful of helpers whose Go sources are not part of `src/` (the `Val`
accessors/coercions from the missing `val.go`, and the default event queue)
are modelled from the specification; each such definition carries a doc
comment starting with "Modelled from the spec:".
-/

/-- Kinds of the scalar values the embedded claims need (`null`, `bool`,
`int`, `real`, `string`), plus the internal function-frame marker the
evaluator pushes onto its value stack. -/
inductive VKind where
  | null
  | bool
  | int
  | real
  | str
  | frame
deriving DecidableEq

/-- The tagged value variant (Go `pl.Val`) restricted to the payloads the
claims under verification exercise.  `VReal` carries a `Rat` standing in for
Go's `float64`. -/
inductive V where
  | VNull
  | VBool (b : Bool)
  | VInt (i : Int)
  | VReal (r : Rat)
  | VStr (s : String)
  | VFrame
deriving DecidableEq

def V.kind : V → VKind
  | .VNull => .null
  | .VBool _ => .bool
  | .VInt _ => .int
  | .VReal _ => .real
  | .VStr _ => .str
  | .VFrame => .frame

def V.isInt (v : V) : Bool := v.kind = VKind.int

def V.isReal (v : V) : Bool := v.kind = VKind.real

/-- Go `Val.IsNumber()`: int or real. -/
def V.IsNumber (v : V) : Bool := v.isInt || v.isReal

/-- Go `Val.Int()` payload accessor (only ever used under an `IsInt` guard in
the embedded code, mirroring the source). -/
def V.asInt : V → Int
  | .VInt i => i
  | _ => 0

/-- Go `Val.Real()` payload accessor (only used under an `IsReal` guard). -/
def V.asReal : V → Rat
  | .VReal r => r
  | _ => 0

/-- Go `Val.String()` payload accessor. -/
def V.asStr : V → String
  | .VStr s => s
  | _ => ""

/-- Modelled from the spec: `Val.ToBoolean` (source `val.go` is missing from
`src/`).  Spec section 4.1: `toBool(null) = false`; `toBool(int/real)` =
(value not 0); `toBool(string)` = (length not 0). -/
def V.ToBoolean : V → Bool
  | .VNull => false
  | .VBool b => b
  | .VInt i => i ≠ 0
  | .VReal r => r ≠ 0
  | .VStr s => s.length ≠ 0
  | .VFrame => true

/-- Modelled from the spec: `Val.ToString` (source `val.go` is missing from
`src/`).  The spec only says it is a deterministic coercion; scalars
stringify, the internal frame marker does not.  No theorem below depends on
the exact rendered text. -/
def V.ToString : V → Except String String
  | .VNull => .ok "null"
  | .VBool b => .ok (if b then "true" else "false")
  | .VInt i => .ok (toString i)
  | .VReal r => .ok (toString r)
  | .VStr s => .ok s
  | .VFrame => .error "frame cannot be stringified"

/-- Modelled from the spec: `Val.ToIndex` (source `val.go` is missing from
`src/`).  Spec section 4.1: "toIndex rejects non-integers". -/
def V.ToIndex : V → Except String Int
  | .VInt i => .ok i
  | _ => .error "value cannot be used as index"

/-- Two's-complement wrap of a mathematical integer into the `int64` range,
modelling Go's wrapping `int64` arithmetic. -/
def wrap64 (z : Int) : Int := (z + 2 ^ 63) % 2 ^ 64 - 2 ^ 63

/-- Go `mustReal` (eval.go): coerce an int-or-real operand to `float64`. -/
def mustReal (x : V) : Rat :=
  if x.kind = VKind.int then (x.asInt : Rat) else x.asReal

/-- The inner multiply loop of Go `powI` (eval.go:562-572):
`for i := 2; i <= m; i++ { result *= n }`, with `int64` wrap on each
multiplication.  `iters` is the number of loop iterations. -/
def powILoop (n : Int) : Int → Nat → Int
  | result, 0 => result
  | result, k + 1 => powILoop n (wrap64 (result * n)) k

/-- Go `powI` (eval.go:562-572): `m == 0` returns 1; otherwise the seed is
`n` and the loop body runs for `i = 2 .. m`, i.e. `(m - 1).toNat` times (zero
times for every negative `m` and for `m = 1`). -/
def powI (n m : Int) : Int :=
  if m = 0 then 1 else powILoop n n (m - 1).toNat

/-- Modelled abstraction of Go `math.Pow` on `float64`: exact for natural
exponents, and otherwise an arbitrary total value.  Every theorem below that
involves `bcPow` on reals depends only on the result's kind, never on this
payload. -/
def mathPow (x y : Rat) : Rat :=
  if y.den = 1 ∧ 0 ≤ y.num then x ^ y.num.toNat else 0

/-- Opcodes of the bytecode subset exercised by the claims (eval.go). -/
inductive Opcode where
  | bcAdd
  | bcSub
  | bcMul
  | bcDiv
  | bcMod
  | bcPow
  | bcEq
  | bcOr
  | bcAnd
  | bcJump
  | bcJfalse
  | bcPop
  | bcLoadInt
  | bcLoadTrue
  | bcLoadFalse
  | bcLoadNull
  | bcPushException
  | bcPopException
  | bcLoadException
  | bcHalt
  | bcNextRule
  | bcReturn
deriving DecidableEq

/-- Go `Evaluator.doBin` (eval.go:575-783) restricted to the opcodes above.
Branch structure mirrors the source: same-kind dispatch first, then the
mixed-numeric promotion branch, then (for `+`) the string-coercion branch,
then the error.  Error messages are copied verbatim from the source
(including the source's reuse of "invalid operand for *" in the `bcPow`,
`bcMod` and `bcDiv` cases). -/
def doBin (lhs rhs : V) (op : Opcode) : Except String V :=
  match op with
  | .bcSub =>
    if lhs.kind = rhs.kind then
      match lhs, rhs with
      | .VInt a, .VInt b => .ok (.VInt (wrap64 (a - b)))
      | .VReal a, .VReal b => .ok (.VReal (a - b))
      | _, _ => .error "invalid operand for -"
    else if lhs.IsNumber && rhs.IsNumber then
      .ok (.VReal (mustReal lhs - mustReal rhs))
    else .error "invalid operand for -"
  | .bcMul =>
    if lhs.kind = rhs.kind then
      match lhs, rhs with
      | .VInt a, .VInt b => .ok (.VInt (wrap64 (a * b)))
      | .VReal a, .VReal b => .ok (.VReal (a * b))
      | _, _ => .error "invalid operand for *"
    else if lhs.IsNumber && rhs.IsNumber then
      .ok (.VReal (mustReal lhs * mustReal rhs))
    else .error "invalid operand for *"
  | .bcPow =>
    if lhs.kind = rhs.kind then
      match lhs, rhs with
      | .VInt a, .VInt b => .ok (.VInt (powI a b))
      | .VReal a, .VReal b => .ok (.VReal (mathPow a b))
      | _, _ => .error "invalid operand for *"
    else if lhs.IsNumber && rhs.IsNumber then
      .ok (.VReal (mathPow (mustReal lhs) (mustReal rhs)))
    else .error "invalid operand for *"
  | .bcMod =>
    if lhs.kind = rhs.kind then
      match lhs, rhs with
      | .VInt a, .VInt b =>
        if b = 0 then .error "divide zero"
        else .ok (.VInt (wrap64 (a.tmod b)))
      | _, _ => .error "invalid operand for *"
    else .error "invalid operand for *"
  | .bcDiv =>
    if lhs.kind = rhs.kind then
      match lhs, rhs with
      | .VInt a, .VInt b =>
        if b = 0 then .error "divide zero"
        else .ok (.VInt (wrap64 (a.tdiv b)))
      | .VReal a, .VReal b => .ok (.VReal (a / b))
      | _, _ => .error "invalid operand for *"
    else if lhs.IsNumber && rhs.IsNumber then
      .ok (.VReal (mustReal lhs / mustReal rhs))
    else .error "invalid operand for *"
  | .bcAdd =>
    if lhs.kind = rhs.kind then
      match lhs, rhs with
      | .VInt a, .VInt b => .ok (.VInt (wrap64 (a + b)))
      | .VReal a, .VReal b => .ok (.VReal (a + b))
      | .VStr a, .VStr b => .ok (.VStr (a ++ b))
      | _, _ => .error "invalid operator for +"
    else if lhs.IsNumber && rhs.IsNumber then
      .ok (.VReal (mustReal lhs + mustReal rhs))
    else if lhs.kind = VKind.str || rhs.kind = VKind.str then
      match lhs.ToString, rhs.ToString with
      | .ok a, .ok b => .ok (.VStr (a ++ b))
      | _, _ => .error "invalid operator for +"
    else .error "invalid operator for +"
  | .bcEq =>
    if lhs.kind = rhs.kind then
      match lhs, rhs with
      | .VInt a, .VInt b => .ok (.VBool (a = b))
      | .VReal a, .VReal b => .ok (.VBool (a = b))
      | .VStr a, .VStr b => .ok (.VBool (a = b))
      | _, _ => .error "invalid operand for =="
    else if lhs.IsNumber && rhs.IsNumber then
      .ok (.VBool (mustReal lhs = mustReal rhs))
    else .error "invalid operand for =="
  | _ => .error "binary operator"

/-- `true` iff an `Except`-valued operation returned without error. -/
def exceptOk : Except String V → Bool
  | .ok _ => true
  | .error _ => false

/-- The kind of a successful result, `none` on error. -/
def resKind : Except String V → Option VKind
  | .ok v => some v.kind
  | .error _ => none

/-!
## The bytecode VM restricted to a single rule frame

`Evaluator.runRuleImpl` (eval.go:1865-1932) runs a rule program inside one
function frame rooted at `framep = 0`: the stack prelude is the native-call
marker (`null`), the event value, and the saved-frame marker pushed by
`prologue`.  None of the opcodes exercised by the claims below perform a
nested script call, so the embedding keeps exactly that single frame: the
frame's exception-handler list and the evaluator's current-exception slot
form the `VMState` together with the value stack.  The Go stack is a slice
appended at the end; the embedding keeps the same orientation (top of stack =
last list element).  The Go handler list is also a slice appended/popped at
the end; the embedding stores it most-recent-first (`pushExcep` conses), the
usual LIFO reading of the same data.  The interpreter loop is given explicit
fuel; `.outOfFuel` marks exhaustion and `.panic` marks conditions where the
Go runtime would panic (stack underflow of a `must` guard, bad pc, bad
constant index). -/

/-- Go `exception` (eval.go:127-131): `(handlerPc, stackSize)`. -/
structure ExceptionRec where
  handlerPc : Nat
  stackSize : Nat
deriving DecidableEq

/-- The mutable evaluator state visible to the single-frame interpreter:
value stack (top = last element), the current frame's handler list (most
recent first) and `Evaluator.curexcep`. -/
structure VMState where
  stack : List V
  excep : List ExceptionRec
  curexcep : V
deriving DecidableEq

/-- Go `bytecode`: `(opcode, argument)`. -/
structure Bytecode where
  opcode : Opcode
  argument : Nat
deriving DecidableEq

/-- The `program` fields the embedded opcodes touch: bytecode list and the
int constant pool (`idxInt`). -/
structure Program where
  bcList : List Bytecode
  intPool : List Int
deriving DecidableEq

/-- Go `Evaluator.top0`: the value at the top of the stack (Go `must` panics
when empty; here `none`). -/
def top0 (st : List V) : Option V := st.getLast?

/-- Go `Evaluator.top1`: the value one below the top. -/
def top1 (st : List V) : Option V := st[st.length - 2]?

/-- Go `Evaluator.popN`: drop `cnt` values from the top. -/
def popN (st : List V) (cnt : Nat) : List V := st.take (st.length - cnt)

/-- Go `Evaluator.push`. -/
def push (st : List V) (v : V) : List V := st ++ [v]

/-- Result of `Evaluator.runP` (eval.go `runresult`), restricted to the
states the embedded opcodes can produce, plus the explicit fuel/panic
artifacts of the model. -/
inductive RunResult where
  | done (s : VMState) (pc : Nat)
  | nextRule (s : VMState) (pc : Nat)
  | err (s : VMState) (msg : String) (pc : Nat)
  | panic
  | outOfFuel
deriving DecidableEq

/-- One dispatch step of the interpreter loop `Evaluator.runP`
(eval.go:897-1705).  `recur pc' s'` continues the loop (the Go `pc++` /
`pc = bc.argument - 1` bookkeeping is folded into the continuation's target
pc).  Each case is a transcription of the corresponding `case bc...:` arm of
the source switch. -/
def runPStep (prog : Program) (recur : Nat → VMState → RunResult)
    (pc : Nat) (s : VMState) : RunResult :=
  match prog.bcList[pc]? with
  | none => .panic
  | some bc =>
    match bc.opcode with
    | .bcAdd | .bcSub | .bcMul | .bcDiv | .bcMod | .bcPow | .bcEq =>
      -- lhs := top1; rhs := top0; popN 2; doBin; on error return rrErr
      match top1 s.stack, top0 s.stack with
      | some lhs, some rhs =>
        let s2 : VMState := { s with stack := popN s.stack 2 }
        match doBin lhs rhs bc.opcode with
        | .error e => .err s2 e pc
        | .ok v => recur (pc + 1) { s2 with stack := push s2.stack v }
      | _, _ => .panic
    | .bcOr =>
      match top0 s.stack with
      | none => .panic
      | some cond =>
        if cond.ToBoolean then recur bc.argument s
        else recur (pc + 1) { s with stack := popN s.stack 1 }
    | .bcAnd =>
      match top0 s.stack with
      | none => .panic
      | some cond =>
        if !cond.ToBoolean then recur bc.argument s
        else recur (pc + 1) { s with stack := popN s.stack 1 }
    | .bcPop =>
      match top0 s.stack with
      | none => .panic
      | some _ => recur (pc + 1) { s with stack := popN s.stack 1 }
    | .bcJump => recur bc.argument s
    | .bcJfalse =>
      match top0 s.stack with
      | none => .panic
      | some cond =>
        let s2 : VMState := { s with stack := popN s.stack 1 }
        if !cond.ToBoolean then recur bc.argument s2 else recur (pc + 1) s2
    | .bcLoadInt =>
      match prog.intPool[bc.argument]? with
      | none => .panic
      | some i => recur (pc + 1) { s with stack := push s.stack (.VInt i) }
    | .bcLoadTrue => recur (pc + 1) { s with stack := push s.stack (.VBool true) }
    | .bcLoadFalse => recur (pc + 1) { s with stack := push s.stack (.VBool false) }
    | .bcLoadNull => recur (pc + 1) { s with stack := push s.stack .VNull }
    | .bcPushException =>
      -- Evaluator.pushExcep(bc.argument, e.stackSize())  (eval.go:408-413,1461-1466)
      recur (pc + 1)
        { s with excep := ⟨bc.argument, s.stack.length⟩ :: s.excep }
    | .bcPopException =>
      match s.excep with
      | [] => .panic
      | _ :: rest => recur bc.argument { s with excep := rest }
    | .bcLoadException =>
      recur (pc + 1) { s with stack := push s.stack s.curexcep }
    | .bcHalt => .done { s with stack := push s.stack .VNull } pc
    | .bcNextRule => .nextRule s pc
    | .bcReturn =>
      -- single-frame epilogue: pop the frame down to framep = 0 and push the
      -- return value; the caller is the top frame (prog = nil) so runP
      -- reports rrDone (eval.go:1268-1276,1798-1813)
      match top0 s.stack with
      | none => .panic
      | some rv => .done { s with stack := [rv] } pc

/-- Fuel-indexed interpreter loop (Go `Evaluator.runP`). -/
def runP (prog : Program) : Nat → Nat → VMState → RunResult
  | 0, _, _ => .outOfFuel
  | fuel + 1, pc, s => runPStep prog (runP prog fuel) pc s

/-- The outcome of `Evaluator.runRuleImpl` for one rule: Go's
`(Val, error, bool)` triple. -/
inductive RuleResult where
  | ret (v : V)
  | next
  | failed (msg : String)
  | panic
  | outOfFuel
deriving DecidableEq

/-- The body of the `RECOVER` loop of `Evaluator.runRuleImpl`
(eval.go:1896-1929) together with the single-frame slice of
`Evaluator.unwindForExcep` (eval.go:1709-1765): on `rrDone` the result is
popped off the stack; on `rrNextRule` the rule chain advances; on an error
the top handler of the rule frame (if any) is caught by truncating the stack
to the recorded size (`popTo`, which Go asserts never grows the stack),
storing the error string in `curexcep`, popping the handler and resuming at
the handler pc; with no handler the frame unwinds to the top frame and the
error is reported. -/
def runRuleStep (recur : Nat → VMState → RuleResult) : RunResult → RuleResult
  | .done s _ =>
    match top0 s.stack with
    | none => .panic
    | some v => .ret v
  | .nextRule _ _ => .next
  | .err s msg _ =>
    match s.excep with
    | [] => .failed msg
    | xp :: rest =>
      if xp.stackSize ≤ s.stack.length then
        recur xp.handlerPc
          { stack := s.stack.take xp.stackSize
            excep := rest
            curexcep := .VStr msg }
      else .panic
  | .panic => .panic
  | .outOfFuel => .outOfFuel

/-- Fuel-indexed `RECOVER` loop of `Evaluator.runRuleImpl`. -/
def runRuleLoop (prog : Program) : Nat → Nat → VMState → RuleResult
  | 0, _, _ => .outOfFuel
  | fuel + 1, pc, s =>
    runRuleStep (runRuleLoop prog fuel) (runP prog (fuel + 1) pc s)

/-- Go `Evaluator.runRuleImpl` entry (eval.go:1865-1895): clear the stack,
reset `curexcep`, push the native-call marker, the event argument and the
saved-frame marker, and enter the interpreter at pc 0. -/
def runRule (prog : Program) (event : V) (fuel : Nat) : RuleResult :=
  runRuleLoop prog fuel 0 ⟨[.VNull, event, .VFrame], [], .VNull⟩

/-- Go `Evaluator.runRuleList` (eval.go:1942-1957): run the rules registered
for one event in order; a `nextRule` outcome advances to the next rule, any
other outcome is returned as is; an exhausted list yields null. -/
def runRuleList (event : V) (fuel : Nat) : List Program → RuleResult
  | [] => .ret .VNull
  | p :: rest =>
    match runRule p event fuel with
    | .next => runRuleList event fuel rest
    | r => r

/-!
## Event queue and module entry points (eval.go:359-406, 2140-2231)

`Evaluator.drainEventQueue` and the module entry points are embedded at the
granularity of their event-queue effects.  The behaviour of a module's rule
programs is abstracted to the events they emit and the error they may raise:
a top-level rule evaluation interacts with the queue only through
`Evaluator.emitEvent`, which appends to it (`defEventQueue` is FIFO per the
spec), and `EvalDeferred` (eval.go:2214-2224) dispatches one queued event
without ever draining again. -/

/-- eval.go:38-47, the `EventContext` status codes. -/
def EventContextContinue : Nat := 0

/-- eval.go:43 (name as in the source). -/
def EventContextPuase : Nat := 1

def EventContextStopAndClear : Nat := 2

/-- The queue-visible evaluator state: the pending FIFO queue (front first)
and the `Evaluator.inEventQueue` re-entrancy flag. -/
structure EQState where
  queue : List (String × V)
  inEventQueue : Bool
deriving DecidableEq

/-- The queue-relevant abstraction of a compiled `Module`: for each event
name, the events emitted by running its rule list plus the error it may
return; and the events emitted by the config / global / session programs. -/
structure EventModule where
  rules : String → List (String × V) × Option String
  configEmits : List (String × V)
  globalEmits : List (String × V)
  sessionEmits : List (String × V)

/-- Go `Evaluator.emitEvent` → `EventQueue.OnEvent`: enqueue at the back
(the default queue is FIFO). -/
def onEvent (s : EQState) (n : String) (c : V) : EQState :=
  { s with queue := s.queue ++ [(n, c)] }

/-- Enqueue every event a program emitted, in emission order. -/
def enqueueAll (s : EQState) (l : List (String × V)) : EQState :=
  { s with queue := s.queue ++ l }

/-- Modelled from the spec: `defEventQueue.Drain` (its source is not under
`src/`; spec section 4.6/6: FIFO, in-memory; each queued event is dispatched
through `EvalDeferred(name, context)`, whose own emits enqueue at the back,
and on a dispatch error the callback built in `drainEventQueue` decides
whether draining continues).  Returns the final status, the queue left
behind, and the dispatched event names in dispatch order.  `fuel` bounds the
number of dispatches (re-entrant emits can extend the queue without bound). -/
def drainQ (m : EventModule) (onEventError : String → String → Nat) :
    Nat → Nat → List (String × V) → List String →
    Nat × List (String × V) × List String
  | 0, status, q, procd => (status, q, procd)
  | _ + 1, status, [], procd => (status, [], procd)
  | fuel + 1, status, (n, _) :: rest, procd =>
    let r := m.rules n
    let q2 := rest ++ r.1
    let procd2 := procd ++ [n]
    match r.2 with
    | none => drainQ m onEventError fuel status q2 procd2
    | some err =>
      let st := onEventError n err
      if st ≠ EventContextContinue then (st, q2, procd2)
      else drainQ m onEventError fuel st q2 procd2

/-- Go `Evaluator.drainEventQueue` (eval.go:367-406): return immediately when
a drain is already in progress; otherwise set the flag, drain with the
error-status callback (status starts at `Continue`; a nil `EventContext` is
the constant-`Continue` callback), clear the queue when the final status is
`StopAndClear`, and reset the flag. -/
def drainEventQueue (m : EventModule) (onEventError : String → String → Nat)
    (fuel : Nat) (s : EQState) : EQState :=
  if s.inEventQueue then s
  else
    let r := drainQ m onEventError fuel EventContextContinue s.queue []
    { queue := if r.1 = EventContextStopAndClear then [] else r.2.1
      inEventQueue := false }

/-- Go `Evaluator.EvalConfig` (eval.go:2140-2149): runs the config program.
Unlike the other module entry points it has no deferred
`drainEventQueue` call. -/
def EvalConfig (m : EventModule) (s : EQState) : EQState :=
  enqueueAll s m.configEmits

/-- Go `Evaluator.EvalGlobal` (eval.go:2151-2167): run the global programs,
then (deferred) drain the event queue. -/
def EvalGlobal (m : EventModule) (onEventError : String → String → Nat)
    (fuel : Nat) (s : EQState) : EQState :=
  drainEventQueue m onEventError fuel (enqueueAll s m.globalEmits)

/-- Go `Evaluator.EvalSession` (eval.go:2169-2185). -/
def EvalSession (m : EventModule) (onEventError : String → String → Nat)
    (fuel : Nat) (s : EQState) : EQState :=
  drainEventQueue m onEventError fuel (enqueueAll s m.sessionEmits)

/-- Go `Evaluator.Eval` (eval.go:2187-2197): run the rule list registered for
`event` (a missing event runs nothing), then (deferred) drain. -/
def Eval (m : EventModule) (onEventError : String → String → Nat)
    (event : String) (fuel : Nat) (s : EQState) : EQState :=
  drainEventQueue m onEventError fuel (enqueueAll s (m.rules event).1)

/-- Go `Evaluator.EvalWithContext` (eval.go:2199-2209); at queue granularity
the extra context value changes nothing. -/
def EvalWithContext (m : EventModule) (onEventError : String → String → Nat)
    (event : String) (fuel : Nat) (s : EQState) : EQState :=
  drainEventQueue m onEventError fuel (enqueueAll s (m.rules event).1)

/-!
## `q::` module aggregation and projection (mod_query.go)

The intrinsic-signature validation (`info.Check`, from the missing intrinsic
machinery) is outside the embedded bodies; the functions below take the
already-validated payloads.  The Go aggregation joiners are closures over
local mutable state (`qavginfo`); the embedding threads that captured state
explicitly through `qagg`. -/

def isint : Nat := 0

def isreal : Nat := 1

def isnone : Nat := 2

/-- Go `firstNum` (mod_query.go:391-402): first int-or-real element with its
index, or `(0, 0, isnone, -1)`. -/
def firstNumAux : List V → Nat → Int × Rat × Nat × Int
  | [], _ => (0, 0, isnone, -1)
  | v :: rest, idx =>
    if v.isInt then (v.asInt, 0, isint, (idx : Int))
    else if v.isReal then (0, v.asReal, isreal, (idx : Int))
    else firstNumAux rest (idx + 1)

def firstNum (l : List V) : Int × Rat × Nat × Int := firstNumAux l 0

/-- The `t == isint` loop of Go `qagg` (mod_query.go:412-422): fold the
joiner over the int elements after the seed, threading the joiner's captured
state `st`.  (The source's `must(c == isint)` holds for every joiner in the
file.) -/
def qaggIntLoop {σ : Type}
    (joiner : σ → Int → Int → Rat → Rat → Nat → σ × Int × Rat × Nat) :
    σ → Int → List V → σ × Int
  | st, current, [] => (st, current)
  | st, current, v :: rest =>
    if v.isInt then
      let r := joiner st current v.asInt 0 0 isint
      qaggIntLoop joiner r.1 r.2.1 rest
    else qaggIntLoop joiner st current rest

/-- The `t == isreal` loop of Go `qagg` (mod_query.go:424-434). -/
def qaggRealLoop {σ : Type}
    (joiner : σ → Int → Int → Rat → Rat → Nat → σ × Int × Rat × Nat) :
    σ → Rat → List V → σ × Rat
  | st, current, [] => (st, current)
  | st, current, v :: rest =>
    if v.isReal then
      let r := joiner st 0 0 current v.asReal isreal
      qaggRealLoop joiner r.1 r.2.2.1 rest
    else qaggRealLoop joiner st current rest

/-- Go `qagg` (mod_query.go:404-438).  The seed comes from `firstNum` and the
loops run over `l.Data[idx+1:]`.  The Go error result is always nil and is
omitted. -/
def qagg {σ : Type} (st0 : σ) (l : List V)
    (joiner : σ → Int → Int → Rat → Rat → Nat → σ × Int × Rat × Nat) :
    σ × Int × Rat × Nat :=
  let f := firstNum l
  if f.2.2.1 = isint then
    let r := qaggIntLoop joiner st0 f.1 (l.drop (f.2.2.2.toNat + 1))
    (r.1, r.2, 0, isint)
  else if f.2.2.1 = isreal then
    let r := qaggRealLoop joiner st0 f.2.1 (l.drop (f.2.2.2.toNat + 1))
    (r.1, 0, r.2, isreal)
  else (st0, 0, 0, isnone)

/-- Go `qaggret` (mod_query.go:440-457) for the always-nil error. -/
def qaggret (i : Int) (r : Rat) (t : Nat) : V :=
  if t = isnone then .VNull
  else if t = isint then .VInt i
  else .VReal r

/-- Go `qSum` (mod_query.go:527-550) on a list payload. -/
def qSum (l : List V) : V :=
  let r := qagg () l (fun st iprev icur rprev rcur t =>
    if t = isint then (st, wrap64 (iprev + icur), 0, isint)
    else (st, 0, rprev + rcur, isreal))
  qaggret r.2.1 r.2.2.1 r.2.2.2

/-- Go `qMax` (mod_query.go:459-491) on a list payload. -/
def qMax (l : List V) : V :=
  let r := qagg () l (fun st iprev icur rprev rcur t =>
    if t = isint then
      if iprev < icur then (st, icur, 0, isint) else (st, iprev, 0, isint)
    else
      if rprev < rcur then (st, 0, rcur, isreal) else (st, 0, rprev, isreal))
  qaggret r.2.1 r.2.2.1 r.2.2.2

/-- Go `qavginfo` (mod_query.go:552-556). -/
structure qavginfo where
  count : Int
  rtt : Rat
  itt : Int
deriving DecidableEq

/-- Go `qAvg` (mod_query.go:558-598) on a list payload: the joiner ignores
the running `current` seeded from the first numeric element and accumulates
only the elements the loop visits (those after the seed) into the captured
`qavginfo`. -/
def qAvg (l : List V) : V :=
  let r := qagg (⟨0, 0, 0⟩ : qavginfo) l (fun avg _ icur _ rcur t =>
    let avg2 := { avg with count := avg.count + 1 }
    if t = isint then ({ avg2 with itt := avg2.itt + icur }, 0, 0, isint)
    else ({ avg2 with rtt := avg2.rtt + rcur }, 0, 0, isreal))
  let t := r.2.2.2
  if t = isnone then .VNull
  else if t = isint then .VReal ((r.1.itt : Rat) / (r.1.count : Rat))
  else .VReal (r.1.rtt / (r.1.count : Rat))

/-- The list branch of Go `qSelect` (mod_query.go:84-116, list selectors
already validated as ints by the signature).  For each selector the source
guards with `idx >= 0 && idx <= l.Length()` and then reads `l.Data[idx]`;
`none` models the Go runtime index-out-of-range panic that the guard admits
at `idx = l.Length()`. -/
def qSelectLoop (l : List V) : List Int → List V → Option (List V)
  | [], acc => some acc
  | idx :: rest, acc =>
    if 0 ≤ idx ∧ idx ≤ (l.length : Int) then
      match l[idx.toNat]? with
      | some x => qSelectLoop l rest (acc ++ [x])
      | none => none
    else qSelectLoop l rest acc

def qSelect (l : List V) (sels : List Int) : Option (List V) :=
  qSelectLoop l sels []

/-!
## Pair (obj_pair.go) -/

/-- Go `Pair` (obj_pair.go:7-10). -/
structure Pair where
  First : V
  Second : V
deriving DecidableEq

/-- Go `Pair.Index` (obj_pair.go:49-62). -/
def Pair.Index (p : Pair) (idx : V) : Except String V :=
  match idx.ToIndex with
  | .error e => .error e
  | .ok i =>
    if i = 0 then .ok p.First
    else if i = 1 then .ok p.Second
    else .error "invalid index, 0 or 1 is allowed on Pair"

/-- Go `Pair.IndexSet` (obj_pair.go:64-79); the mutation is returned as the
updated pair. -/
def Pair.IndexSet (p : Pair) (idx val : V) : Except String Pair :=
  match idx.ToIndex with
  | .error e => .error e
  | .ok i =>
    if i = 0 then .ok { p with First := val }
    else if i = 1 then .ok { p with Second := val }
    else .error "invalid index, 0 or 1 is allowed on Pair"

/-- Go `Pair.Dot` (obj_pair.go:81-90). -/
def Pair.Dot (p : Pair) (i : String) : Except String V :=
  if i = "first" then .ok p.First
  else if i = "second" then .ok p.Second
  else .error "invalid field name, 'first'/'second' is allowed on Pair"

/-- Go `Pair.DotSet` (obj_pair.go:92-103). -/
def Pair.DotSet (p : Pair) (i : String) (val : V) : Except String Pair :=
  if i = "first" then .ok { p with First := val }
  else if i = "second" then .ok { p with Second := val }
  else .error "invalid field name, 'first'/'second' is allowed on Pair"

/-- Go `PairIter` (obj_pair.go:12-15). -/
structure PairIter where
  p : Pair
  cnt : Int
deriving DecidableEq

/-- Go `Pair.NewIter` (obj_pair.go:42-47). -/
def Pair.NewIter (p : Pair) : PairIter := ⟨p, 0⟩

/-- Go `PairIter.Has` (obj_pair.go:21-23). -/
def PairIter.Has (it : PairIter) : Bool := it.cnt < 2

/-- Go `PairIter.Next` (obj_pair.go:25-28); the mutated iterator is returned
alongside the `has` flag, and the error result is always nil. -/
def PairIter.Next (it : PairIter) : Bool × PairIter :=
  let it2 : PairIter := { it with cnt := it.cnt + 1 }
  (it2.Has, it2)

/-- Go `PairIter.Deref` (obj_pair.go:30-40). -/
def PairIter.Deref (it : PairIter) : Except String (V × V) :=
  if it.cnt = 0 then .ok (.VInt 0, it.p.First)
  else if it.cnt = 1 then .ok (.VInt 1, it.p.Second)
  else .error "iterator out of bound"

/-!
## Decidability plumbing and concrete inputs used by witnesses -/

instance {ε α : Type} [DecidableEq ε] [DecidableEq α] : DecidableEq (Except ε α) :=
  fun a b =>
    match a, b with
    | .error e, .error f => decidable_of_iff (e = f) (by simp)
    | .ok x, .ok y => decidable_of_iff (x = y) (by simp)
    | .error _, .ok _ => isFalse (by simp)
    | .ok _, .error _ => isFalse (by simp)

set_option maxRecDepth 8000

/-- A program whose pc 0 is `and 2`: on a truthy top of stack the source pops
it and falls through to the `halt` at pc 1; the jump target pc 2 is a
`return`. -/
def andDemo : Program := ⟨[⟨.bcAnd, 2⟩, ⟨.bcHalt, 0⟩, ⟨.bcReturn, 0⟩], []⟩

/-- A rule that immediately issues `nextRule`. -/
def pNext : Program := ⟨[⟨.bcNextRule, 0⟩], []⟩

/-- A rule that returns the int constant 7. -/
def pSeven : Program := ⟨[⟨.bcLoadInt, 0⟩, ⟨.bcReturn, 0⟩], [7]⟩

/-- A rule body for `try { 1/0 } catch e { return e }`: `pushException 4`
records the current stack size, the division faults, and the handler at pc 4
returns the caught exception string. -/
def excProg : Program :=
  ⟨[⟨.bcPushException, 4⟩, ⟨.bcLoadInt, 0⟩, ⟨.bcLoadInt, 1⟩, ⟨.bcDiv, 0⟩,
    ⟨.bcLoadException, 0⟩, ⟨.bcReturn, 0⟩], [1, 0]⟩

/-- A module whose config program emits one `"child"` event and whose rules
emit nothing and never fail. -/
def mChild : EventModule := ⟨fun _ => ([], none), [("child", .VNull)], [], []⟩

/-- The `OnEventError` callback of a nil `EventContext`: always `Continue`. -/
def evOk : String → String → Nat := fun _ _ => EventContextContinue

/-!
## Helper lemmas -/

lemma wrap64_eq_self {z : Int} (h1 : -(2 ^ 63) ≤ z) (h2 : z < 2 ^ 63) :
    wrap64 z = z := by
  unfold wrap64
  rw [Int.emod_eq_of_lt (by omega) (by omega)]
  omega

lemma wrap64_modEq (a : Int) : wrap64 a ≡ a [ZMOD (2 ^ 64)] := by
  have h := (Int.mod_modEq (a + 2 ^ 63) (2 ^ 64)).sub_right (2 ^ 63)
  simpa [wrap64] using h

lemma wrap64_congr {a b : Int} (h : a ≡ b [ZMOD (2 ^ 64)]) :
    wrap64 a = wrap64 b := by
  have h2 := h.add_right (2 ^ 63)
  unfold Int.ModEq at h2
  unfold wrap64
  omega

lemma powILoop_wrap (n : Int) (k : Nat) (r : Int) :
    powILoop n r (k + 1) = wrap64 (r * n ^ (k + 1)) := by
  induction k generalizing r with
  | zero => simp [powILoop]
  | succ k ih =>
    show powILoop n (wrap64 (r * n)) (k + 1) = _
    rw [ih (wrap64 (r * n))]
    apply wrap64_congr
    have h := (wrap64_modEq (r * n)).mul_right (n ^ (k + 1))
    calc wrap64 (r * n) * n ^ (k + 1)
        ≡ r * n * n ^ (k + 1) [ZMOD (2 ^ 64)] := h
      _ = r * n ^ (k + 1 + 1) := by ring

/-!
## Claim theorems -/

/-- Claim C10 (confirmed): for int operands `**` is computed by `powI`
(repeated multiplication) and never raises: `n ** 0 = 1`; for `m ≥ 1` the
result is the `m`-fold product of `n` wrapped into `int64` on overflow; and
for every negative `m` the result is `n` itself (the Go loop from 2 to `m`
never runs).  The `doBin` conjunct shows the `bcPow` int/int branch returns
`ok (powI n m)` for all inputs, so no error is possible. -/
theorem powI_spec (n m : Int) (h1 : -(2 ^ 63) ≤ n) (h2 : n < 2 ^ 63) :
    powI n 0 = 1 ∧
    (m < 0 → powI n m = n) ∧
    (1 ≤ m → powI n m = wrap64 (n ^ m.toNat)) ∧
    doBin (.VInt n) (.VInt m) .bcPow = .ok (.VInt (powI n m)) := by
  refine ⟨by simp [powI], ?_, ?_, by simp [doBin, V.kind]⟩
  · intro hm
    have hz : ¬(m = 0) := by omega
    have ht : (m - 1).toNat = 0 := by omega
    simp [powI, hz, ht, powILoop]
  · intro hm
    rcases eq_or_lt_of_le hm with h | h
    · have hz : ¬(m = 0) := by omega
      have ht : (m - 1).toNat = 0 := by omega
      have htn : m.toNat = 1 := by omega
      simp [powI, hz, ht, htn, powILoop, wrap64_eq_self h1 h2]
    · have hz : ¬(m = 0) := by omega
      have hk : ∃ k : Nat, (m - 1).toNat = k + 1 := ⟨(m - 1).toNat - 1, by omega⟩
      obtain ⟨k, hk⟩ := hk
      have htn : m.toNat = k + 1 + 1 := by omega
      rw [powI, if_neg hz, hk, powILoop_wrap, htn]
      apply wrap64_congr
      have : n * n ^ (k + 1) = n ^ (k + 1 + 1) := by ring
      rw [this]

/-- Witness for C10 at concrete inputs. -/
theorem powI_spec_witness :
    powI 3 0 = 1 ∧ powI 3 (-5) = 3 ∧ powI 2 64 = wrap64 (2 ^ (64 : Int).toNat) := by
  have ha := powI_spec 3 (-5) (by norm_num) (by norm_num)
  have hb := powI_spec 2 64 (by norm_num) (by norm_num)
  exact ⟨ha.1, ha.2.1 (by norm_num), hb.2.2.1 (by norm_num)⟩

/-- Claim C7 counterexample: the claim quantifies the promotion rule over
`mod` as well, but `%` on two real operands is rejected by the source
(eval.go:616-625 only accepts two ints), it does not produce a real. -/
theorem mod_on_reals_errors :
    doBin (.VReal 1) (.VReal 1) .bcMod = .error "invalid operand for *" := by
  decide

/-- Claim C7 (amended): kind preservation/promotion holds unconditionally for
`add`, `sub`, `mul`, `pow` on every numeric operand mix (both int gives int,
both real gives real, mixed gives real) and for `div` on every mix except
int/int with a zero divisor — real-by-real and real-by-int-zero division
included; the int/int `div` yields int exactly under a nonzero divisor, and
`mod` is defined only on int/int (nonzero divisor) where it yields int. -/
theorem arith_kind_rules (op : Opcode)
    (hop : op ∈ [Opcode.bcAdd, Opcode.bcSub, Opcode.bcMul, Opcode.bcPow])
    (a b : Int) (x y : Rat) :
    resKind (doBin (.VInt a) (.VInt b) op) = some .int ∧
    resKind (doBin (.VReal x) (.VReal y) op) = some .real ∧
    resKind (doBin (.VInt a) (.VReal y) op) = some .real ∧
    resKind (doBin (.VReal x) (.VInt b) op) = some .real ∧
    (b ≠ 0 → resKind (doBin (.VInt a) (.VInt b) .bcDiv) = some .int) ∧
    resKind (doBin (.VReal x) (.VReal y) .bcDiv) = some .real ∧
    resKind (doBin (.VInt a) (.VReal y) .bcDiv) = some .real ∧
    resKind (doBin (.VReal x) (.VInt b) .bcDiv) = some .real ∧
    (b ≠ 0 → resKind (doBin (.VInt a) (.VInt b) .bcMod) = some .int) := by
  fin_cases hop <;>
    refine ⟨?_, ?_, ?_, ?_, ?_, ?_, ?_, ?_, ?_⟩ <;>
    (intros; simp_all [doBin, resKind, V.kind, V.IsNumber, V.isInt, V.isReal])

/-- Witness for C7's amended theorem at `op = add`, including a zero second
operand for `add` and a real-by-int-zero division, plus a nonzero int/int
division. -/
theorem arith_kind_rules_witness :
    resKind (doBin (.VInt 1) (.VInt 0) .bcAdd) = some .int ∧
    resKind (doBin (.VReal 1) (.VInt 0) .bcDiv) = some .real ∧
    resKind (doBin (.VInt 1) (.VInt 2) .bcDiv) = some .int := by
  have h := arith_kind_rules .bcAdd (by simp) 1 0 1 1
  have h2 := arith_kind_rules .bcAdd (by simp) 1 2 1 1
  exact ⟨h.1, h.2.2.2.2.2.2.2.1, h2.2.2.2.2.1 (by norm_num)⟩

/-- Claim C6 counterexample: real-by-real division by zero does NOT fail with
an arithmetic error — eval.go:634-636 divides unconditionally (Go float64
yields an infinity), so the claim's "this holds for division of every numeric
kind, including real-by-real" is false. -/
theorem real_div_zero_ok :
    exceptOk (doBin (.VReal 1) (.VReal 0) .bcDiv) = true := by decide

/-- Claim C6 (amended): `%` succeeds only on two int operands; division and
modulo report "divide zero" exactly when both operands are int and the
divisor is zero; real-by-real and mixed divisions by a zero divisor return
without error (IEEE non-finite payloads in the Go runtime). -/
theorem div_mod_zero_rules (a : Int) (x : Rat) (v1 v2 : V) :
    doBin (.VInt a) (.VInt 0) .bcDiv = .error "divide zero" ∧
    doBin (.VInt a) (.VInt 0) .bcMod = .error "divide zero" ∧
    (exceptOk (doBin v1 v2 .bcMod) = true →
      v1.kind = VKind.int ∧ v2.kind = VKind.int) ∧
    exceptOk (doBin (.VReal x) (.VReal 0) .bcDiv) = true ∧
    exceptOk (doBin (.VInt a) (.VReal 0) .bcDiv) = true ∧
    exceptOk (doBin (.VReal x) (.VInt 0) .bcDiv) = true := by
  refine ⟨by simp [doBin, V.kind], by simp [doBin, V.kind], ?_, ?_, ?_, ?_⟩
  · cases v1 <;> cases v2 <;>
      simp [doBin, exceptOk, V.kind, V.IsNumber, V.isInt, V.isReal]
  all_goals
    simp [doBin, exceptOk, V.kind, V.IsNumber, V.isInt, V.isReal]

/-- Witness for C6's amended theorem at concrete inputs. -/
theorem div_mod_zero_rules_witness :
    doBin (.VInt 7) (.VInt 0) .bcDiv = .error "divide zero" ∧
    exceptOk (doBin (.VReal 1) (.VInt 0) .bcDiv) = true ∧
    ((.VInt 2 : V).kind = VKind.int ∧ (.VInt 3 : V).kind = VKind.int) := by
  have h := div_mod_zero_rules 7 1 (.VInt 2) (.VInt 3)
  exact ⟨h.1, h.2.2.2.2.2, h.2.2.1 (by decide)⟩

/-- Claim C5 (code bug in `qAvg`): on `[1,2,3,4]` the source returns
`q::sum = 10` and `q::max = 4`, and `q::max` of the empty list is null, as the
claim states; but `q::avg` returns real 3, not the claimed 2.5, because the
aggregation seed produced by `firstNum` (the first numeric element) is never
added to `qavginfo` — the joiner only sees the elements after it, giving
(2+3+4)/3.  (`qCount` compensates for the same loop shape by starting its
count at 1, which shows the first element is intended to participate.) -/
theorem query_agg_on_1234 :
    qSum [.VInt 1, .VInt 2, .VInt 3, .VInt 4] = .VInt 10 ∧
    qMax [.VInt 1, .VInt 2, .VInt 3, .VInt 4] = .VInt 4 ∧
    qMax [] = .VNull ∧
    qAvg [.VInt 1, .VInt 2, .VInt 3, .VInt 4] = .VReal 3 ∧
    (3 : Rat) ≠ 5 / 2 := by
  refine ⟨by decide, by decide, by decide, ?_, by norm_num⟩
  simp [qAvg, qagg, firstNum, firstNumAux, qaggIntLoop, isint, isreal, isnone,
    V.isInt, V.isReal, V.asInt, V.kind]
  norm_num

/-- Claim C9 (code bug in `qSelect`): the in-range guard is
`idx >= 0 && idx <= l.Length()` (mod_query.go:99), so a selector equal to the
list length passes the guard and `l.Data[idx]` faults with an index
out-of-range runtime panic (modelled as `none`) — the claim's "silently
skipping every selector index outside 0..len(l)-1, and never faults" fails at
`selector = len(l)`.  Selectors strictly inside or strictly outside the claim
range behave as the claim (and the repo's `testSelect`) describe. -/
theorem qSelect_out_of_range :
    qSelect [.VInt 1] [1] = none ∧
    qSelect [.VInt 1, .VInt 2, .VInt 3] [1, 2] = some [.VInt 2, .VInt 3] ∧
    qSelect ([] : List V) [1, 2, 3] = some [] ∧
    qSelect [.VInt 1, .VInt 2, .VInt 3] [-5, 0, 7] = some [.VInt 1] := by
  decide

/-- Claim C8 (confirmed): a pair is indexable exactly by 0/1 (reading/writing
`First`/`Second`, any other index or a non-integer index errors),
dot-accessible exactly by `first`/`second` for both read and write, and its
iterator yields exactly `(0, first)` then `(1, second)` before reporting
exhaustion. -/
theorem pair_contract (p : Pair) (v w : V) (i : Int) (s : String)
    (hi0 : i ≠ 0) (hi1 : i ≠ 1) (hv : v.kind ≠ VKind.int)
    (hs1 : s ≠ "first") (hs2 : s ≠ "second") :
    p.Index (.VInt 0) = .ok p.First ∧
    p.Index (.VInt 1) = .ok p.Second ∧
    p.Index (.VInt i) = .error "invalid index, 0 or 1 is allowed on Pair" ∧
    p.Index v = .error "value cannot be used as index" ∧
    p.IndexSet (.VInt 0) w = .ok ⟨w, p.Second⟩ ∧
    p.IndexSet (.VInt 1) w = .ok ⟨p.First, w⟩ ∧
    p.IndexSet (.VInt i) w = .error "invalid index, 0 or 1 is allowed on Pair" ∧
    p.Dot "first" = .ok p.First ∧
    p.Dot "second" = .ok p.Second ∧
    p.Dot s = .error "invalid field name, 'first'/'second' is allowed on Pair" ∧
    p.DotSet "first" w = .ok ⟨w, p.Second⟩ ∧
    p.DotSet "second" w = .ok ⟨p.First, w⟩ ∧
    p.DotSet s w = .error "invalid field name, 'first'/'second' is allowed on Pair" ∧
    p.NewIter.Has = true ∧
    p.NewIter.Deref = .ok (.VInt 0, p.First) ∧
    p.NewIter.Next.1 = true ∧
    p.NewIter.Next.2.Deref = .ok (.VInt 1, p.Second) ∧
    p.NewIter.Next.2.Next.1 = false ∧
    p.NewIter.Next.2.Next.2.Has = false ∧
    p.NewIter.Next.2.Next.2.Deref = .error "iterator out of bound" := by
  refine ⟨by simp [Pair.Index, V.ToIndex], by simp [Pair.Index, V.ToIndex],
    by simp [Pair.Index, V.ToIndex, hi0, hi1], ?_,
    by simp [Pair.IndexSet, V.ToIndex], by simp [Pair.IndexSet, V.ToIndex],
    by simp [Pair.IndexSet, V.ToIndex, hi0, hi1],
    by simp [Pair.Dot], by simp [Pair.Dot], by simp [Pair.Dot, hs1, hs2],
    by simp [Pair.DotSet], by simp [Pair.DotSet], by simp [Pair.DotSet, hs1, hs2],
    by simp [Pair.NewIter, PairIter.Has],
    by simp [Pair.NewIter, PairIter.Deref],
    by simp [Pair.NewIter, PairIter.Next, PairIter.Has],
    by simp [Pair.NewIter, PairIter.Next, PairIter.Deref],
    by simp [Pair.NewIter, PairIter.Next, PairIter.Has],
    by simp [Pair.NewIter, PairIter.Next, PairIter.Has],
    by simp [Pair.NewIter, PairIter.Next, PairIter.Deref]⟩
  cases v <;> simp_all [Pair.Index, V.ToIndex, V.kind]

/-- Witness for C8 at a concrete pair. -/
theorem pair_contract_witness :
    Pair.Index ⟨.VInt 5, .VStr "x"⟩ (.VInt 0) = .ok (.VInt 5) ∧
    Pair.Index ⟨.VInt 5, .VStr "x"⟩ (.VInt 7) =
      .error "invalid index, 0 or 1 is allowed on Pair" ∧
    Pair.Index ⟨.VInt 5, .VStr "x"⟩ .VNull =
      .error "value cannot be used as index" ∧
    (Pair.NewIter ⟨.VInt 5, .VStr "x"⟩).Next.2.Deref =
      .ok (.VInt 1, .VStr "x") := by
  have h := pair_contract ⟨.VInt 5, .VStr "x"⟩ .VNull (.VBool true) 7 "zzz"
    (by decide) (by decide) (by decide) (by decide) (by decide)
  exact ⟨h.1, h.2.2.1, h.2.2.2.1, h.2.2.2.2.2.2.2.2.2.2.2.2.2.2.2.2.1⟩

/-- Claim C3 counterexample: at pc 0 `andDemo` holds `and 2` and the top of
stack is truthy.  The claim says the truthy value is kept and control jumps
to pc 2 (the `return`, which would finish with the kept `true`); the source
(eval.go:972-979) instead pops the value and falls through to the `halt` at
pc 1, finishing with a pushed null. -/
theorem bcAnd_truthy_falls_through :
    runP andDemo 10 0 ⟨[.VBool true], [], .VNull⟩ =
      .done ⟨[.VNull], [], .VNull⟩ 1 ∧
    runP andDemo 10 0 ⟨[.VBool true], [], .VNull⟩ ≠
      .done ⟨[.VBool true], [], .VNull⟩ 2 := by
  decide

/-- Claim C3 (amended): the source semantics are the mirror image of the
claim.  `and pc`: a falsy top of stack is kept and control jumps to `pc`; a
truthy top is popped and execution falls through.  `or pc`: a truthy top is
kept and control jumps to `pc`; a falsy top is popped and execution falls
through. -/
theorem bcAnd_bcOr_semantics (prog : Program) (f pc a : Nat) (s : VMState)
    (cond : V) (htop : top0 s.stack = some cond) :
    (prog.bcList[pc]? = some ⟨.bcAnd, a⟩ →
      (cond.ToBoolean = false → runP prog (f + 1) pc s = runP prog f a s) ∧
      (cond.ToBoolean = true →
        runP prog (f + 1) pc s =
          runP prog f (pc + 1) { s with stack := popN s.stack 1 })) ∧
    (prog.bcList[pc]? = some ⟨.bcOr, a⟩ →
      (cond.ToBoolean = true → runP prog (f + 1) pc s = runP prog f a s) ∧
      (cond.ToBoolean = false →
        runP prog (f + 1) pc s =
          runP prog f (pc + 1) { s with stack := popN s.stack 1 })) := by
  constructor <;> intro hbc <;> constructor <;> intro hcond <;>
    simp [runP, runPStep, hbc, htop, hcond]

/-- Witness for C3's amended theorem: `and` at pc 0 of `andDemo` with a falsy
top keeps the value and jumps to the argument pc. -/
theorem bcAnd_bcOr_semantics_witness :
    runP andDemo 10 0 ⟨[.VBool false], [], .VNull⟩ =
      runP andDemo 9 2 ⟨[.VBool false], [], .VNull⟩ := by
  exact ((bcAnd_bcOr_semantics andDemo 9 0 2 ⟨[.VBool false], [], .VNull⟩
    (.VBool false) rfl).1 rfl).1 rfl

/-- Claim C2 (confirmed): when an instruction fails and the rule frame's
innermost handler was pushed by `pushException` recording `(h, sz)`, the
`RECOVER` path truncates the value stack to exactly `sz` values, stores the
error string as the current exception and resumes at pc `h` with that handler
popped — so after a caught error the stack size equals the
`pushException`-recorded size.  (The `sz ≤ |stack|` hypothesis is the
source's own `popTo` assertion: the stack never shrinks below a handler's
checkpoint while the handler is live.) -/
theorem caught_error_restores_stack (prog : Program) (f pc pc2 : Nat)
    (s s2 : VMState) (msg : String) (h sz : Nat) (rest : List ExceptionRec)
    (hrun : runP prog (f + 1) pc s = .err s2 msg pc2)
    (hex : s2.excep = ⟨h, sz⟩ :: rest)
    (hle : sz ≤ s2.stack.length) :
    runRuleLoop prog (f + 1) pc s =
      runRuleLoop prog f h ⟨s2.stack.take sz, rest, .VStr msg⟩ ∧
    (s2.stack.take sz).length = sz := by
  constructor
  · show runRuleStep (runRuleLoop prog f) (runP prog (f + 1) pc s) = _
    rw [hrun]
    simp [runRuleStep, hex, hle]
  · simp [List.length_take, Nat.min_eq_left hle]

/-- Witness for C2: in `excProg` the handler is pushed at stack size 3 (the
rule frame prelude), `1/0` fails, and the caught error resumes at pc 4 with
the stack truncated back to exactly 3 values. -/
theorem caught_error_restores_stack_witness :
    runRuleLoop excProg 10 0 ⟨[.VNull, .VNull, .VFrame], [], .VNull⟩ =
      runRuleLoop excProg 9 4
        ⟨[.VNull, .VNull, .VFrame], [], .VStr "divide zero"⟩ ∧
    (([.VNull, .VNull, .VFrame] : List V).take 3).length = 3 := by
  have h := caught_error_restores_stack excProg 9 0 3
    ⟨[.VNull, .VNull, .VFrame], [], .VNull⟩
    ⟨[.VNull, .VNull, .VFrame], [⟨4, 3⟩], .VNull⟩
    "divide zero" 4 3 [] (by decide) rfl (by decide)
  exact h

/-- Claim C4 (confirmed): `runRuleList` runs the rules registered for an
event in registration order; every rule that ends in `nextRule` passes
control to the next one, a rule that returns stops the chain with its value
as the evaluation result (the rules after it never influence the outcome),
and when every rule (including the last) issues `nextRule` the evaluation
yields null. -/
theorem rule_chain (event : V) (fuel : Nat) (as bs : List Program)
    (p : Program) (v : V)
    (hnext : ∀ q ∈ as, runRule q event fuel = .next)
    (hstop : runRule p event fuel = .ret v) :
    runRuleList event fuel (as ++ p :: bs) = .ret v ∧
    (∀ ps : List Program, (∀ q ∈ ps, runRule q event fuel = .next) →
      runRuleList event fuel ps = .ret .VNull) := by
  constructor
  · induction as with
    | nil => simp [runRuleList, hstop]
    | cons q as ih =>
      have hq := hnext q (List.mem_cons_self q as)
      have ih2 := ih (fun r hr => hnext r (List.mem_cons_of_mem q hr))
      simpa [runRuleList, hq] using ih2
  · intro ps hps
    induction ps with
    | nil => simp [runRuleList]
    | cons q rest ih =>
      have hq := hps q (List.mem_cons_self q rest)
      have ih2 := ih (fun r hr => hps r (List.mem_cons_of_mem q hr))
      simpa [runRuleList, hq] using ih2

/-- Witness for C4: rule `pNext` chains to `pSeven`, whose returned 7 is the
result; a chain of two `nextRule` rules yields null. -/
theorem rule_chain_witness :
    runRuleList .VNull 10 [pNext, pSeven] = .ret (.VInt 7) ∧
    runRuleList .VNull 10 [pNext, pNext] = .ret .VNull := by
  have h := rule_chain .VNull 10 [pNext] [] pSeven (.VInt 7)
    (by intro q hq; rw [List.mem_singleton] at hq; subst hq; decide)
    (by decide)
  refine ⟨h.1, h.2 [pNext, pNext] ?_⟩
  intro q hq
  rcases List.mem_cons.mp hq with h1 | h1
  · subst h1; decide
  · rw [List.mem_singleton] at h1; subst h1; decide

lemma drainQ_quiet (m : EventModule) (ev : String → String → Nat)
    (hq : ∀ n, m.rules n = ([], none)) :
    ∀ (fuel : Nat) (q : List (String × V)) (procd : List String),
      q.length ≤ fuel →
      drainQ m ev fuel EventContextContinue q procd =
        (EventContextContinue, [], procd ++ q.map Prod.fst) := by
  intro fuel
  induction fuel with
  | zero =>
    intro q procd hlen
    have : q = [] := List.eq_nil_of_length_eq_zero (by omega)
    subst this
    simp [drainQ]
  | succ f ih =>
    intro q procd hlen
    match q with
    | [] => simp [drainQ]
    | (n, c) :: rest =>
      have hr := hq n
      have hlen2 : rest.length ≤ f := by
        simp at hlen
        omega
      simp only [drainQ, hr]
      rw [ih (rest ++ []) (procd ++ [n]) (by simpa using hlen2)]
      simp

/-- Claim C1 counterexample: `EvalConfig` (eval.go:2140-2149) has no deferred
`drainEventQueue` call, unlike the other four entry points.  Running the
config program of `mChild` (which emits one `"child"` event) leaves the event
queued and undispatched, whereas the drain the claim promises would have
emptied the queue. -/
theorem evalConfig_skips_drain :
    (EvalConfig mChild ⟨[], false⟩).queue = [("child", .VNull)] ∧
    drainEventQueue mChild evOk 1 (EvalConfig mChild ⟨[], false⟩) =
      ⟨[], false⟩ ∧
    EvalConfig mChild ⟨[], false⟩ ≠
      drainEventQueue mChild evOk 1 (EvalConfig mChild ⟨[], false⟩) := by
  refine ⟨rfl, ?_, ?_⟩ <;> decide

/-- Claim C1 (amended): `Eval`, `EvalWithContext`, `EvalGlobal` and
`EvalSession` drain the event queue after the top-level rule evaluation
returns (`EvalConfig` does not, per the counterexample); a `drainEventQueue`
entered while a drain is already in progress returns immediately without
touching the state, so re-entrant emits are only enqueued; and for a module
whose dispatched rules emit nothing and never fail, a drain with sufficient
fuel dispatches the whole queue in FIFO order and leaves it empty. -/
theorem event_queue_drain_contract (m : EventModule)
    (ev : String → String → Nat) (fuel : Nat) (s : EQState) (event : String)
    (hin : s.inEventQueue = true) (hq : ∀ n, m.rules n = ([], none)) :
    drainEventQueue m ev fuel s = s ∧
    Eval m ev event fuel s =
      drainEventQueue m ev fuel (enqueueAll s (m.rules event).1) ∧
    EvalWithContext m ev event fuel s =
      drainEventQueue m ev fuel (enqueueAll s (m.rules event).1) ∧
    EvalGlobal m ev fuel s =
      drainEventQueue m ev fuel (enqueueAll s m.globalEmits) ∧
    EvalSession m ev fuel s =
      drainEventQueue m ev fuel (enqueueAll s m.sessionEmits) ∧
    (∀ (q : List (String × V)), q.length ≤ fuel →
      drainQ m ev fuel EventContextContinue q [] =
        (EventContextContinue, [], q.map Prod.fst)) := by
  refine ⟨by simp [drainEventQueue, hin], rfl, rfl, rfl, rfl, ?_⟩
  intro q hlen
  simpa using drainQ_quiet m ev hq fuel q [] hlen

/-- Witness for C1's amended theorem: the guard makes a re-entrant drain a
no-op on a nonempty queue, and a quiet two-event queue drains fully in FIFO
order. -/
theorem event_queue_drain_contract_witness :
    drainEventQueue mChild evOk 5 ⟨[("a", .VNull)], true⟩ =
      ⟨[("a", .VNull)], true⟩ ∧
    drainQ mChild evOk 5 EventContextContinue
      [("a", .VNull), ("b", .VNull)] [] =
      (EventContextContinue, [], ["a", "b"]) := by
  have h := event_queue_drain_contract mChild evOk 5 ⟨[("a", .VNull)], true⟩
    "e" rfl (fun _ => rfl)
  exact ⟨h.1, h.2.2.2.2.2 [("a", .VNull), ("b", .VNull)] (by decide)⟩
